import Mathlib

/-!
Shallow embedding of the `hall` probability library (the converged revision:
`hall/_core.py`, `hall/_event.py`, `hall/analysis.py`, `hall/stats.py`).

Numeric model: mpmath's arbitrary-precision reals are modelled exactly by `ℚ`
(all claims operate at points where the arithmetic is exact rational
arithmetic); mpmath numbers that may be complex (`analysis.py` works
componentwise on `real`/`imag`) are modelled by a pair of rationals together
with a kind tag recording whether the Python object is an `int`, an `mpf`
float or an `mpc` complex — `Interval.d` and `Interval.is_discrete` branch on
those runtime types, so the tag is part of the state.
-/

namespace Hall

/-- The runtime numeric type of a value in the `hall.numbers` tower:
`IntType = int`, `FloatType = mpmath.mpf`, `ComplexType = mpmath.mpc`. -/
inductive NumKind where
  | int
  | float
  | complex
deriving DecidableEq, Repr

/-- A number of the `hall.numbers` tower: a complex value `re + im*i` with
exact rational components, tagged with its runtime type. Real-typed values
keep `im = 0`. -/
structure Num where
  kind : NumKind
  re : ℚ
  im : ℚ
deriving DecidableEq, Repr

namespace Num

/-- Negation of a number (`-x`), kind preserved. -/
def neg (x : Num) : Num := ⟨x.kind, -x.re, -x.im⟩

/-- Kind of the result of `+`, `-`, `*` between two tower numbers
(complex wins over float wins over int). -/
def joinKind (k l : NumKind) : NumKind :=
  if k = .complex ∨ l = .complex then .complex
  else if k = .float ∨ l = .float then .float
  else .int

/-- Kind of the result of `/` (Python true division of two ints is a float). -/
def joinKindDiv (k l : NumKind) : NumKind :=
  if k = .complex ∨ l = .complex then .complex else .float

/-- `x + y`. -/
def add (x y : Num) : Num := ⟨joinKind x.kind y.kind, x.re + y.re, x.im + y.im⟩

/-- `x - y`. -/
def sub (x y : Num) : Num := ⟨joinKind x.kind y.kind, x.re - y.re, x.im - y.im⟩

/-- `x * y` (complex multiplication; for real operands `im = 0` and this is
the plain product). -/
def mul (x y : Num) : Num :=
  ⟨joinKind x.kind y.kind, x.re * y.re - x.im * y.im, x.re * y.im + x.im * y.re⟩

/-- `x / y` (complex division; division by zero does not occur on the claims'
inputs — the model returns component `0` where Python would raise). -/
def div (x y : Num) : Num :=
  let d := y.re * y.re + y.im * y.im
  ⟨joinKindDiv x.kind y.kind, (x.re * y.re + x.im * y.im) / d,
    (x.im * y.re - x.re * y.im) / d⟩

end Num

/-- `analysis._cmax` specialised to its two-argument uses in
`Interval.__and__` / `Interval.__or__`: `res` is the first argument, `arg`
the second. For a non-complex `res` the code compares with `arg > res`
(both operands real there, so the comparison is on real parts); for a
complex `res` it combines components, building mixed values with
`type(res)(...)`. -/
def cmax2 (res arg : Num) : Num :=
  if res.kind ≠ .complex then
    if arg.re > res.re then arg else res
  else
    if arg.re > res.re ∧ arg.im > res.im then arg
    else if arg.re > res.re then ⟨res.kind, arg.re, res.im⟩
    else if arg.im > res.im then ⟨res.kind, res.re, arg.im⟩
    else res

/-- `analysis._cmin` for two arguments: `-_cmax(-res, -arg)`. -/
def cmin2 (res arg : Num) : Num := (cmax2 res.neg arg.neg).neg

/-- `analysis.Interval`: a closed interval with endpoints `a`, `b`. -/
structure Interval where
  a : Num
  b : Num
deriving DecidableEq, Repr

namespace Interval

/-- `Interval.__init__`: swaps the endpoints when `a.real > b.real`, and when
(afterwards) `a.imag > b.imag` swaps the imaginary components, producing
`ComplexType` values (`clean_number` keeps each runtime type, so it is the
identity in this model). -/
def make (a b : Num) : Interval :=
  let p : Num × Num := if a.re > b.re then (b, a) else (a, b)
  if p.1.im > p.2.im then
    ⟨⟨.complex, p.1.re, p.2.im⟩, ⟨.complex, p.2.re, p.1.im⟩⟩
  else
    ⟨p.1, p.2⟩

/-- The documented interval invariant: `a.real <= b.real` and
`a.imag <= b.imag`. -/
def inv (i : Interval) : Prop := i.a.re ≤ i.b.re ∧ i.a.im ≤ i.b.im

/-- `Interval.isdisjoint`: the source's exact, asymmetric four-clause test
(its last clause reads `self.a.imag < other.a.imag`). -/
def isdisjoint (i j : Interval) : Bool :=
  i.a.re > j.b.re ∨ i.a.im > j.b.im ∨ i.b.re < j.a.re ∨ i.a.im < j.a.im

/-- `Interval.__and__` (intersection): `None` when disjoint, otherwise the
interval of componentwise max-of-lower / min-of-upper bounds, built through
the constructor. -/
def and_ (i j : Interval) : Option Interval :=
  if i.isdisjoint j then none
  else some (make (cmax2 i.a j.a) (cmin2 i.b j.b))

/-- `Interval.__or__` (union): raises `NotImplementedError` when disjoint
(modelled as `none`), otherwise min-of-lower / max-of-upper through the
constructor. -/
def or_ (i j : Interval) : Option Interval :=
  if i.isdisjoint j then none
  else some (make (cmin2 i.a j.a) (cmax2 i.b j.b))

/-- `Interval.__add__` with an interval operand. -/
def add (i j : Interval) : Interval := make (i.a.add j.a) (i.b.add j.b)

/-- `Interval.__add__` with a numeric operand. -/
def addNum (i : Interval) (x : Num) : Interval := make (i.a.add x) (i.b.add x)

/-- `Interval.__sub__` with an interval operand. -/
def sub (i j : Interval) : Interval := make (i.a.sub j.a) (i.b.sub j.b)

/-- `Interval.__sub__` with a numeric operand. -/
def subNum (i : Interval) (x : Num) : Interval := make (i.a.sub x) (i.b.sub x)

/-- `Interval.__mul__` with an interval operand. -/
def mul (i j : Interval) : Interval := make (i.a.mul j.a) (i.b.mul j.b)

/-- `Interval.__mul__` with a numeric operand. -/
def mulNum (i : Interval) (x : Num) : Interval := make (i.a.mul x) (i.b.mul x)

/-- `Interval.__truediv__` with an interval operand. -/
def div (i j : Interval) : Interval := make (i.a.div j.a) (i.b.div j.b)

/-- `Interval.__truediv__` with a numeric operand. -/
def divNum (i : Interval) (x : Num) : Interval := make (i.a.div x) (i.b.div x)

/-- `Interval.__neg__`. (`__pow__` follows the same constructor pattern but
its values are not rational-representable, so it is left out of the model.) -/
def neg (i : Interval) : Interval := make i.a.neg i.b.neg

/-- `Interval.is_complex`. -/
def is_complex (i : Interval) : Bool :=
  i.a.im ≠ 0 ∨ i.b.im ≠ 0 ∨ i.a.kind = .complex ∨ i.b.kind = .complex

/-- `Interval.is_discrete`. -/
def is_discrete (i : Interval) : Bool :=
  ¬ i.is_complex ∧ i.a.kind = .int ∧ i.b.kind = .int

/-- `mpmath.mp.eps` at the default 53-bit working precision. -/
def eps : ℚ := 1 / 2 ^ 52

/-- `Interval.d`: the smallest representable increment for the endpoint
types — `1` for integer (discrete) intervals, machine epsilon otherwise. -/
def d (i : Interval) : Num :=
  if i.is_complex then ⟨.complex, eps, eps⟩
  else if i.is_discrete then ⟨.int, 1, 0⟩
  else ⟨.float, eps, 0⟩

end Interval

/-- The constructor establishes the invariant for arbitrary bounds. -/
theorem interval_make_inv (a b : Num) : (Interval.make a b).inv := by
  unfold Interval.make Interval.inv
  split_ifs <;> dsimp only <;> split_ifs <;>
    constructor <;> dsimp only <;> linarith

/-- `hall._core.Distribution` contract: discreteness flag, support interval,
`mean`, `variance`, and the three pure functions `f` (PMF/PDF), `F` (CDF),
`G` (inverse CDF). The distribution functions take and return real values,
modelled by `ℚ`. -/
structure Distribution where
  discrete : Bool
  supp : Interval
  mean : ℚ
  variance : ℚ
  f : ℚ → ℚ
  F : ℚ → ℚ
  G : ℚ → ℚ

/-- `hall._core.RandomVar`: wraps exactly one `Distribution`. -/
structure RandomVar where
  distribution : Distribution

namespace RandomVar

/-- `RandomVar.__discrete__` (delegates to the distribution). -/
def discrete (X : RandomVar) : Bool := X.distribution.discrete

/-- `RandomVar.__support__` (delegates). -/
def supp (X : RandomVar) : Interval := X.distribution.supp

/-- `RandomVar.mean` (delegates). -/
def mean (X : RandomVar) : ℚ := X.distribution.mean

/-- `RandomVar.variance` (delegates). -/
def variance (X : RandomVar) : ℚ := X.distribution.variance

/-- `RandomVar.f` (delegates). -/
def f (X : RandomVar) (x : ℚ) : ℚ := X.distribution.f x

/-- `RandomVar.F` (delegates). -/
def F (X : RandomVar) (x : ℚ) : ℚ := X.distribution.F x

/-- `RandomVar.G` (delegates). -/
def G (X : RandomVar) (y : ℚ) : ℚ := X.distribution.G y

end RandomVar

/-- Python's `round` on an exact value: round half to even. -/
def roundHalfEven (x : ℚ) : ℤ :=
  if x - ⌊x⌋ < 1 / 2 then ⌊x⌋
  else if 1 / 2 < x - ⌊x⌋ then ⌊x⌋ + 1
  else if Even ⌊x⌋ then ⌊x⌋ else ⌊x⌋ + 1

/-- `hall._core.MappedRandomVar`: affine state `(add, mul, div)` over a bare
`RandomVar` (`__arg__` is a `RandomVar`, not another mapped variable); the
divisor is "kept separately to avoid rounding errors". -/
structure MappedRandomVar where
  arg : RandomVar
  add : ℚ
  mul : ℚ
  div : ℚ

namespace MappedRandomVar

/-- `MappedRandomVar.__discrete__` (delegates to `__arg__`). -/
def discrete (m : MappedRandomVar) : Bool := m.arg.discrete

/-- `MappedRandomVar._apply` on a real argument:
`x * mpmath.fraction(mul, div) + add`. -/
def apply (m : MappedRandomVar) (x : ℚ) : ℚ := x * (m.mul / m.div) + m.add

/-- `MappedRandomVar._apply` on a support endpoint: the `mpmath.fraction`
product makes the result an `mpf` (an `mpc` for complex input); the addend
is real. -/
def applyNum (m : MappedRandomVar) (x : Num) : Num :=
  ⟨if x.kind = .complex then .complex else .float,
    x.re * (m.mul / m.div) + m.add, x.im * (m.mul / m.div)⟩

/-- `MappedRandomVar.__support__`: the transformed endpoints through the
`Interval` constructor. -/
def supp (m : MappedRandomVar) : Interval :=
  Interval.make (m.applyNum m.arg.supp.a) (m.applyNum m.arg.supp.b)

/-- `MappedRandomVar.mean`: `_apply(arg.mean)`. -/
def mean (m : MappedRandomVar) : ℚ := m.apply m.arg.mean

/-- `MappedRandomVar.variance`: the code computes
`a = mpmath.fraction(self.__add, self.__div)` and returns
`self.__arg__.variance * a * a` — note that it reads the addend
(`self.__add`), not the multiplier. -/
def variance (m : MappedRandomVar) : ℚ :=
  m.arg.variance * (m.add / m.div) * (m.add / m.div)

/-- `MappedRandomVar._unapply`: `(y - add) * div / mul`, rounded to the
nearest integer (Python rounding, half to even) for discrete variables. -/
def unapply (m : MappedRandomVar) (y : ℚ) : ℚ :=
  if m.discrete then (roundHalfEven ((y - m.add) * m.div / m.mul) : ℚ)
  else (y - m.add) * m.div / m.mul

/-- `MappedRandomVar.f`: evaluates `__arg__.f` at the inverse-transformed
point. -/
def f (m : MappedRandomVar) (x : ℚ) : ℚ := m.arg.f (m.unapply x)

/-- `MappedRandomVar.F`: evaluates `__arg__.F` at the inverse-transformed
point. -/
def F (m : MappedRandomVar) (x : ℚ) : ℚ := m.arg.F (m.unapply x)

/-- `MappedRandomVar.G`: forward transform of `__arg__.G`. -/
def G (m : MappedRandomVar) (y : ℚ) : ℚ := m.apply (m.arg.G y)

/-- `MappedRandomVar._as_mapped`: starts from the current
`(add, mul, div)` state; an `add` argument adds to the addend; a `mul`
argument multiplies the addend and the multiplier; a `div` argument divides
the addend and assigns the divisor (`kwargs["div"] = div`). -/
def asMapped (m : MappedRandomVar) (add mul div : Option ℚ) : MappedRandomVar :=
  let a1 : ℚ := match add with
    | some c => m.add + c
    | none => m.add
  let p : ℚ × ℚ := match mul with
    | some c => (a1 * c, m.mul * c)
    | none => (a1, m.mul)
  let q : ℚ × ℚ := match div with
    | some c => (p.1 / c, c)
    | none => (p.1, m.div)
  ⟨m.arg, q.1, p.2, q.2⟩

end MappedRandomVar

/-- `RandomVar._as_mapped`: builds a `MappedRandomVar` over `self`, with the
constructor defaults `add=0`, `mul=1`, `div=1` for arguments not passed. -/
def RandomVar.asMapped (X : RandomVar) (add mul div : Option ℚ) :
    MappedRandomVar :=
  ⟨X, add.getD 0, mul.getD 1, div.getD 1⟩

/-- A `BaseRandomVar`: either a bare `RandomVar` or a `MappedRandomVar`
(the two concrete implementations of the protocol). -/
inductive RVar where
  | base : RandomVar → RVar
  | mapped : MappedRandomVar → RVar

namespace RVar

/-- `__discrete__` through the protocol. -/
def discrete : RVar → Bool
  | .base X => X.discrete
  | .mapped m => m.discrete

/-- `__support__` through the protocol. -/
def supp : RVar → Interval
  | .base X => X.supp
  | .mapped m => m.supp

/-- `f` through the protocol. -/
def f : RVar → ℚ → ℚ
  | .base X => X.f
  | .mapped m => m.f

/-- `F` through the protocol. -/
def F : RVar → ℚ → ℚ
  | .base X => X.F
  | .mapped m => m.F

/-- `G` through the protocol. -/
def G : RVar → ℚ → ℚ
  | .base X => X.G
  | .mapped m => m.G

/-- `mean` through the protocol. -/
def mean : RVar → ℚ
  | .base X => X.mean
  | .mapped m => m.mean

/-- `variance` through the protocol. -/
def variance : RVar → ℚ
  | .base X => X.variance
  | .mapped m => m.variance

/-- `_as_mapped` through the protocol. -/
def asMapped (X : RVar) (add mul div : Option ℚ) : MappedRandomVar :=
  match X with
  | .base Y => Y.asMapped add mul div
  | .mapped m => m.asMapped add mul div

/-- `BaseRandomVar.__add__` with a numeric operand:
`_as_mapped(add=clean_number(other))`. -/
def addC (X : RVar) (c : ℚ) : MappedRandomVar := X.asMapped (some c) none none

/-- `BaseRandomVar.__sub__` with a numeric operand:
`_as_mapped(add=clean_number(-other))`. -/
def subC (X : RVar) (c : ℚ) : MappedRandomVar := X.asMapped (some (-c)) none none

/-- `BaseRandomVar.__mul__` with a numeric operand: `_as_mapped(mul=...)`. -/
def mulC (X : RVar) (c : ℚ) : MappedRandomVar := X.asMapped none (some c) none

/-- `BaseRandomVar.__truediv__` with a numeric operand: `_as_mapped(div=...)`. -/
def divC (X : RVar) (c : ℚ) : MappedRandomVar := X.asMapped none none (some c)

/-- `BaseRandomVar.__neg__`: `_as_mapped(mul=-1)`. -/
def negV (X : RVar) : MappedRandomVar := X.asMapped none (some (-1)) none

end RVar

/-- `hall._event.EventEq`: symbolic `(X == x)` (or `(X != x)` when `inv`). -/
structure EventEq where
  X : RVar
  x : ℚ
  inv : Bool

/-- `EventEq.p`: `0` for a non-discrete variable (before the inversion check);
otherwise `f(x)`, or `1 - f(x)` when inverted. -/
def EventEq.p (e : EventEq) : ℚ :=
  if ¬ e.X.discrete then 0
  else if e.inv then 1 - e.X.f e.x
  else e.X.f e.x

/-- `hall._event.EventInterval`: symbolic `a < X <= b` with optional bounds
(constructing with both bounds `None` raises `ValueError`; every comparison
operator supplies one bound). -/
structure EventInterval where
  X : RVar
  a : Option ℚ
  b : Option ℚ
  inv : Bool

/-- The value computed by `EventInterval.p` before its assertion:
`p = 1` if `b` is `None` else `F(b)`; minus `F(a)` if `a` is present;
`1 - p` when inverted. -/
def EventInterval.pVal (e : EventInterval) : ℚ :=
  let p : ℚ := match e.b with
    | none => 1
    | some b => e.X.F b
  let p1 : ℚ := match e.a with
    | none => p
    | some a => p - e.X.F a
  if e.inv then 1 - p1 else p1

/-- `EventInterval.p` including its `assert is_probability(p)`: `none` models
the fatal `AssertionError` when the computed value is outside `[0, 1]`. -/
def EventInterval.p (e : EventInterval) : Option ℚ :=
  if 0 ≤ e.pVal ∧ e.pVal ≤ 1 then some e.pVal else none

namespace RVar

/-- `BaseRandomVar.__lt__`: `EventInterval(self, b=other - support.d)`
(the operand is real, so the subtraction acts on the real component of
`d`). -/
def ltC (X : RVar) (c : ℚ) : EventInterval := ⟨X, none, some (c - X.supp.d.re), false⟩

/-- `BaseRandomVar.__le__`: `EventInterval(self, b=other)`. -/
def leC (X : RVar) (c : ℚ) : EventInterval := ⟨X, none, some c, false⟩

/-- `BaseRandomVar.__gt__`: `EventInterval(self, a=other)`. -/
def gtC (X : RVar) (c : ℚ) : EventInterval := ⟨X, some c, none, false⟩

/-- `BaseRandomVar.__ge__`: `EventInterval(self, a=other + 1)` when discrete,
else `EventInterval(self, a=other)`. -/
def geC (X : RVar) (c : ℚ) : EventInterval :=
  if X.discrete then ⟨X, some (c + 1), none, false⟩
  else ⟨X, some c, none, false⟩

end RVar

/-- An operand of a binary operator on `BaseRandomVar`: either a number or
another random variable (any other type fails the `is_number` check). -/
inductive Operand where
  | num : ℚ → Operand
  | rvar : RVar → Operand

namespace RVar

/-- `BaseRandomVar.__add__`: `_as_mapped(add=...)` for a numeric operand,
`NotImplemented` (modelled `none`) otherwise. -/
def addOp (X : RVar) (o : Operand) : Option MappedRandomVar :=
  match o with
  | .num c => some (X.asMapped (some c) none none)
  | .rvar _ => none

/-- `BaseRandomVar.__sub__`: `_as_mapped(add=-other)` for a numeric operand,
`NotImplemented` otherwise. -/
def subOp (X : RVar) (o : Operand) : Option MappedRandomVar :=
  match o with
  | .num c => some (X.asMapped (some (-c)) none none)
  | .rvar _ => none

/-- `BaseRandomVar.__rsub__`: `self.__neg__().__add__(other)`. -/
def rsubOp (Y : RVar) (o : Operand) : Option MappedRandomVar :=
  (RVar.mapped Y.negV).addOp o

end RVar

/-- Python evaluation of `X - Y` for two random variables: `X.__sub__(Y)`
first; when it returns `NotImplemented`, `Y.__rsub__(X)`; when that also
returns `NotImplemented`, the interpreter raises `TypeError` (`none`). -/
def pySub (X Y : RVar) : Option MappedRandomVar :=
  match X.subOp (.rvar Y) with
  | some m => some m
  | none => Y.rsubOp (.rvar X)

namespace RVar

/-- `BaseRandomVar.__eq__`: for a `BaseRandomVar` operand, `self - other == 0`
(a `TypeError` raised by the subtraction propagates, `none`); otherwise
`EventEq(self, other)`. -/
def eqOp (X : RVar) (o : Operand) : Option EventEq :=
  match o with
  | .rvar Y =>
    match pySub X Y with
    | some m => some ⟨RVar.mapped m, 0, false⟩
    | none => none
  | .num c => some ⟨X, c, false⟩

/-- `BaseRandomVar.__ne__`: for a `BaseRandomVar` operand,
`self - other != 0`; otherwise `EventEq(self, other, _inv=True)`. -/
def neOp (X : RVar) (o : Operand) : Option EventEq :=
  match o with
  | .rvar Y =>
    match pySub X Y with
    | some m => some ⟨RVar.mapped m, 0, true⟩
    | none => none
  | .num c => some ⟨X, c, true⟩

end RVar

/-- `hall._event.Event`: the closed union of the two event variants. -/
inductive Event where
  | eq : EventEq → Event
  | ival : EventInterval → Event

/-- `Event.p` through the union (`EventEq.p` has no assertion). -/
def Event.pO : Event → Option ℚ
  | .eq e => some e.p
  | .ival e => e.p

/-- `Event.__or__` ("Conditional event"): when the right-hand side is an
`Event`, the code returns `self` unchanged. -/
def Event.or_ (e : Event) (_ : Event) : Event := e

/-- `stats.P`: on an `Event`, its probability; on a `BaseRandomVar` `X`,
the probability of `EventEq(X, 0, _inv=True)`, i.e. `P[X] -> P[X != 0]`. -/
def P : Event ⊕ RVar → Option ℚ
  | .inl e => e.pO
  | .inr X => (Event.eq ⟨X, 0, true⟩).pO

/-- `stats.Var`: `X.variance`. -/
def Var (X : RVar) : ℚ := X.variance

/-- `stats.Cov`: `Var(X)` when `X is Y`, else (a TODO in the source, pending
joint distributions) `FloatType(0)`. Python object identity is not structural
equality, so it is modelled by the explicit flag `same`; for the distinct
arguments of claim C5, `same = false`. -/
def Cov (same : Bool) (X : RVar) (_Y : RVar) : ℚ :=
  if same then Var X else 0

/-! Concrete plug-in distributions used to evaluate the code on the
claims' inputs. Only the values queried by a claim matter. -/

/-- A discrete test variable: integer support `[0, 4]`, `Var[X] = 1`, and
`f = F = 1/2` at every point. -/
def XD : RandomVar :=
  ⟨⟨true, ⟨⟨.int, 0, 0⟩, ⟨.int, 4, 0⟩⟩, 2, 1,
    fun _ => 1 / 2, fun _ => 1 / 2, fun y => y⟩⟩

/-- A continuous test variable with `mean = 6`, `Var[X] = 1` and identity
`F` and `G`. -/
def XC : RandomVar :=
  ⟨⟨false, ⟨⟨.float, 0, 0⟩, ⟨.float, 1, 0⟩⟩, 6, 1,
    fun _ => 0, fun x => x, fun y => y⟩⟩

/-- A continuous test variable whose CDF is constantly `1/2` (trivially
non-decreasing with values in `[0, 1]`). -/
def XW : RandomVar :=
  ⟨⟨false, ⟨⟨.float, 0, 0⟩, ⟨.float, 1, 0⟩⟩, 0, 0,
    fun _ => 0, fun _ => 1 / 2, fun _ => 0⟩⟩

/-- The integer interval `[0, 1]`. -/
def I0 : Interval := ⟨⟨.int, 0, 0⟩, ⟨.int, 1, 0⟩⟩

/-- The integer interval `[2, 3]`, disjoint from `I0`. -/
def J0 : Interval := ⟨⟨.int, 2, 0⟩, ⟨.int, 3, 0⟩⟩

/-! Claim theorems. -/

/-- C1: the claim states `MappedRandomVar.variance` is
`(multiplier/divisor)^2 * variance`, so `Var[2*X] = 4*Var[X]` and
`Var[2*X + 3] = 4*Var[X]` when `Var[X] = 1`. The code squares the
addend/divisor ratio instead: `Var[2*X]` evaluates to `0` and
`Var[2*X + 3]` to `9`, so the multiplier is ignored and the addend does
affect the variance — the code contradicts its claim. -/
theorem C1_variance_uses_addend :
    XD.variance = 1
    ∧ ((RVar.base XD).mulC 2).variance = 0
    ∧ ((RVar.mapped ((RVar.base XD).mulC 2)).addC 3).variance = 9 := by
  refine ⟨rfl, ?_, ?_⟩ <;>
    norm_num [XD, RVar.mulC, RVar.addC, RVar.asMapped, RandomVar.asMapped,
      MappedRandomVar.asMapped, MappedRandomVar.variance, RandomVar.variance,
      Option.getD]

/-- C2: for the discrete variable `XD` (integer support, so `support.d = 1`)
and the constant `5`, `X < 5` builds the interval event with upper bound
`4 = 5 - 1` as the claim states, but `X >= 5` builds the event with lower
bound `6 = 5 + 1` (`__ge__` passes `a=other + 1`), where the claim requires
the lower bound `4 = 5 - 1`. -/
theorem C2_ge_uses_plus_one :
    ((RVar.base XD).ltC 5).b = some 4
    ∧ ((RVar.base XD).geC 5).a = some 6 := by
  constructor
  · show some ((5 : ℚ) - 1) = some 4
    norm_num
  · show some ((5 : ℚ) + 1) = some 6
    norm_num

/-- C3: `X == Y` for two random variables executes `self - other == 0`, but
`BaseRandomVar.__sub__` returns `NotImplemented` for a non-numeric operand
and `__rsub__` reduces to `__add__`, which also returns `NotImplemented`
— so the subtraction raises `TypeError` (`none`) instead of producing the
equality event the claim describes. -/
theorem C3_eq_between_rvars_raises :
    (RVar.base XD).eqOp (.rvar (RVar.base XC)) = none
    ∧ (RVar.base XD).neOp (.rvar (RVar.base XC)) = none :=
  ⟨rfl, rfl⟩

/-- C4: with `XC.mean = 6` and identity CDF, the claim says `(X / 2) / 3`
agrees with `X / 6` (mean `1`, `F(1) = 6`). The code's `_as_mapped` divides
the addend but *replaces* the divisor (`kwargs["div"] = div`), so
`(X / 2) / 3` carries the state `(add=0, mul=1, div=3)` — it is `X / 3`:
its mean is `2`, not `1`, and `F(1)` is `3`, not `6`. -/
theorem C4_div_composition_bug :
    ((RVar.mapped ((RVar.base XC).divC 2)).divC 3).div = 3
    ∧ ((RVar.mapped ((RVar.base XC).divC 2)).divC 3).mean = 2
    ∧ ((RVar.base XC).divC 6).mean = 1
    ∧ ((RVar.mapped ((RVar.base XC).divC 2)).divC 3).F 1 = 3
    ∧ ((RVar.base XC).divC 6).F 1 = 6 := by
  refine ⟨rfl, ?_, ?_, ?_, ?_⟩ <;>
    norm_num [XC, RVar.divC, RVar.asMapped, RandomVar.asMapped,
      MappedRandomVar.asMapped, MappedRandomVar.mean, MappedRandomVar.apply,
      MappedRandomVar.F, MappedRandomVar.unapply, MappedRandomVar.discrete,
      RandomVar.discrete, RandomVar.F, RandomVar.mean, Option.getD]

/-- C5 counterexample: the claim says cross-variable covariance and the
conditional-probability composition of two events fail with a
not-implemented signal; at these concrete inputs `stats.Cov` silently
returns the number `0` and `Event.__or__` silently returns the left event
unchanged. -/
theorem C5_counterexample_silent_values :
    Cov false (RVar.base XD) (RVar.base XC) = 0
    ∧ Event.or_ (Event.eq ⟨RVar.base XD, 1, false⟩)
        (Event.eq ⟨RVar.base XC, 2, false⟩)
      = Event.eq ⟨RVar.base XD, 1, false⟩ :=
  ⟨rfl, rfl⟩

/-- C5 amended: of the three operations, only the interval union of two
disjoint intervals raises `NotImplementedError`; cross-variable covariance
silently returns `0`, and the `|` composition of two events silently
returns the left event unchanged. -/
theorem C5_amended_unsupported :
    (∀ i j : Interval, i.isdisjoint j = true → i.or_ j = none)
    ∧ (∀ X Y : RVar, Cov false X Y = 0)
    ∧ (∀ e e2 : Event, Event.or_ e e2 = e) := by
  refine ⟨?_, fun X Y => rfl, fun e e2 => rfl⟩
  intro i j h
  unfold Interval.or_
  rw [if_pos h]

/-- Witness for the amended C5 at concrete inputs: `[0,1] | [2,3]` raises. -/
theorem C5_amended_witness :
    I0.or_ J0 = none
    ∧ Cov false (RVar.base XC) (RVar.base XD) = 0
    ∧ Event.or_ (Event.eq ⟨RVar.base XC, 0, false⟩)
        (Event.eq ⟨RVar.base XD, 0, false⟩)
      = Event.eq ⟨RVar.base XC, 0, false⟩ :=
  ⟨C5_amended_unsupported.1 I0 J0 (by decide),
    C5_amended_unsupported.2.1 (RVar.base XC) (RVar.base XD),
    C5_amended_unsupported.2.2 _ _⟩

/-- C6: the probability of an equality event is `f(x)` (`1 - f(x)` when
inverted) for a discrete variable, and `0` for a continuous variable
regardless of the inverted flag (the continuous check precedes the
inversion check). -/
theorem C6_eq_event_probability (e : EventEq) :
    e.p = if e.X.discrete then (if e.inv then 1 - e.X.f e.x else e.X.f e.x)
          else 0 := by
  unfold EventEq.p
  by_cases h : e.X.discrete <;> simp [h]

/-- C7: complementary probabilities. `X <= c` evaluates to `F(c)` and
`X > c` to `1 - F(c)` (both passing the probability assertion when
`F(c)` is in `[0, 1]`), and the two sum to `1`; for a discrete variable the
equality and inequality events at `x` have probabilities `f(x)` and
`1 - f(x)`, which also sum to `1`. -/
theorem C7_complementary_probabilities (X : RVar) (c x : ℚ)
    (h0 : 0 ≤ X.F c) (h1 : X.F c ≤ 1) :
    (X.leC c).p = some (X.F c)
    ∧ (X.gtC c).p = some (1 - X.F c)
    ∧ X.F c + (1 - X.F c) = 1
    ∧ (X.discrete = true →
        (EventEq.mk X x false).p + (EventEq.mk X x true).p = 1) := by
  refine ⟨?_, ?_, by ring, ?_⟩
  · have hv : (X.leC c).pVal = X.F c := rfl
    unfold EventInterval.p
    rw [hv, if_pos ⟨h0, h1⟩]
  · have hv : (X.gtC c).pVal = 1 - X.F c := rfl
    unfold EventInterval.p
    rw [hv, if_pos ⟨by linarith, by linarith⟩]
  · intro hd
    unfold EventEq.p
    simp [hd]

/-- Witness for C7 at the discrete variable `XD` with `c = 0`, `x = 1`. -/
theorem C7_witness :
    ((RVar.base XD).leC 0).p = some ((RVar.base XD).F 0)
    ∧ ((RVar.base XD).gtC 0).p = some (1 - (RVar.base XD).F 0)
    ∧ (RVar.base XD).F 0 + (1 - (RVar.base XD).F 0) = 1
    ∧ ((RVar.base XD).discrete = true →
        (EventEq.mk (RVar.base XD) 1 false).p
          + (EventEq.mk (RVar.base XD) 1 true).p = 1) :=
  C7_complementary_probabilities (RVar.base XD) 0 1
    (by norm_num [XD, RVar.F, RandomVar.F])
    (by norm_num [XD, RVar.F, RandomVar.F])

/-- C8: when the CDF is non-decreasing with values in `[0, 1]` and the
bounds satisfy `a <= b` whenever both are present, the computed interval
probability (with the `F(+inf)=1` / `F(-inf)=0` conventions and the
inverted case) lies in `[0, 1]`, so the assertion in `EventInterval.p`
never fails. -/
theorem C8_interval_event_probability_in_unit (X : RVar) (a b : Option ℚ)
    (i : Bool)
    (hmono : ∀ x y : ℚ, x ≤ y → X.F x ≤ X.F y)
    (hrange : ∀ x : ℚ, 0 ≤ X.F x ∧ X.F x ≤ 1)
    (hab : ∀ x y : ℚ, a = some x → b = some y → x ≤ y) :
    0 ≤ (EventInterval.mk X a b i).pVal
    ∧ (EventInterval.mk X a b i).pVal ≤ 1
    ∧ (EventInterval.mk X a b i).p
      = some (EventInterval.mk X a b i).pVal := by
  have key : 0 ≤ (EventInterval.mk X a b i).pVal
      ∧ (EventInterval.mk X a b i).pVal ≤ 1 := by
    cases a with
    | none =>
      cases b with
      | none =>
        cases i
        all_goals simp [EventInterval.pVal]
      | some vb =>
        obtain ⟨hb0, hb1⟩ := hrange vb
        cases i <;> simp [EventInterval.pVal] <;> constructor <;> linarith
    | some va =>
      obtain ⟨ha0, ha1⟩ := hrange va
      cases b with
      | none =>
        cases i <;> simp [EventInterval.pVal] <;> constructor <;> linarith
      | some vb =>
        obtain ⟨hb0, hb1⟩ := hrange vb
        have hle : X.F va ≤ X.F vb := hmono va vb (hab va vb rfl rfl)
        cases i <;> simp [EventInterval.pVal] <;> constructor <;> linarith
  refine ⟨key.1, key.2, ?_⟩
  unfold EventInterval.p
  rw [if_pos key]

/-- Witness for C8 at the variable `XW` (constant CDF `1/2`), with bounds
`0 <= 1` and the inverted flag set. -/
theorem C8_witness :
    0 ≤ (EventInterval.mk (RVar.base XW) (some 0) (some 1) true).pVal
    ∧ (EventInterval.mk (RVar.base XW) (some 0) (some 1) true).pVal ≤ 1
    ∧ (EventInterval.mk (RVar.base XW) (some 0) (some 1) true).p
      = some (EventInterval.mk (RVar.base XW) (some 0) (some 1) true).pVal :=
  C8_interval_event_probability_in_unit (RVar.base XW) (some 0) (some 1) true
    (by intro x y h; simp [RVar.F, RandomVar.F, XW])
    (by intro x
        constructor
        all_goals norm_num [RVar.F, RandomVar.F, XW])
    (by intro x y hx hy
        injection hx with hx2
        injection hy with hy2
        rw [← hx2, ← hy2]
        norm_num)

/-- C9: the `Interval` constructor normalizes its bounds (swapping whole
endpoints, then imaginary components) so that `a.real <= b.real` and
`a.imag <= b.imag` always hold, and every interval-producing operation —
intersection, union, arithmetic with an interval or a number, negation —
builds its result through the constructor, so each result satisfies the
invariant. -/
theorem C9_interval_invariant :
    (∀ a b : Num, (Interval.make a b).inv)
    ∧ (∀ i j r : Interval, i.and_ j = some r → r.inv)
    ∧ (∀ i j r : Interval, i.or_ j = some r → r.inv)
    ∧ (∀ i j : Interval, (i.add j).inv)
    ∧ (∀ (i : Interval) (x : Num), (i.addNum x).inv)
    ∧ (∀ i j : Interval, (i.sub j).inv)
    ∧ (∀ (i : Interval) (x : Num), (i.subNum x).inv)
    ∧ (∀ i j : Interval, (i.mul j).inv)
    ∧ (∀ (i : Interval) (x : Num), (i.mulNum x).inv)
    ∧ (∀ i j : Interval, (i.div j).inv)
    ∧ (∀ (i : Interval) (x : Num), (i.divNum x).inv)
    ∧ (∀ i : Interval, i.neg.inv) := by
  refine ⟨interval_make_inv, ?_, ?_, fun i j => interval_make_inv _ _,
    fun i x => interval_make_inv _ _, fun i j => interval_make_inv _ _,
    fun i x => interval_make_inv _ _, fun i j => interval_make_inv _ _,
    fun i x => interval_make_inv _ _, fun i j => interval_make_inv _ _,
    fun i x => interval_make_inv _ _, fun i => interval_make_inv _ _⟩
  · intro i j r h
    unfold Interval.and_ at h
    split at h
    · exact absurd h (by simp)
    · injection h with h2
      subst h2
      exact interval_make_inv _ _
  · intro i j r h
    unfold Interval.or_ at h
    split at h
    · exact absurd h (by simp)
    · injection h with h2
      subst h2
      exact interval_make_inv _ _

/-- Witness for C9: the constructor normalizes the reversed bounds `(3, 1)`,
and the self-intersection of `[0, 1]` satisfies the invariant. -/
theorem C9_witness :
    (Interval.make ⟨.int, 3, 0⟩ ⟨.int, 1, 0⟩).inv ∧ I0.inv :=
  ⟨C9_interval_invariant.1 ⟨.int, 3, 0⟩ ⟨.int, 1, 0⟩,
    C9_interval_invariant.2.1 I0 I0 I0 (by decide)⟩

/-- C10: `stats.P` applied to a bare random variable returns the probability
of the event `X != 0`: `1 - f(0)` for a discrete variable and `0` for a
continuous one (equality-event probabilities are `0` for continuous
variables even when inverted). -/
theorem C10_P_on_bare_rvar (X : RVar) :
    P (Sum.inr X) = (Event.eq ⟨X, 0, true⟩).pO
    ∧ P (Sum.inr X) = some (if X.discrete then 1 - X.f 0 else 0) := by
  refine ⟨rfl, ?_⟩
  unfold P Event.pO EventEq.p
  by_cases h : X.discrete <;> simp [h]

end Hall
